import Mathlib

/-
Verification of the streaming-response span/event accumulator of the
OpenAI chat-completion instrumentation
(`opentelemetry/instrumentation/openai_v2/patch.py`).

The embedding mirrors the Python classes `ToolCallBuffer`, `ChoiceBuffer`
and `StreamWrapper`:

* chunk objects are records of optional fields (a pydantic model instance
  is always truthy, so `Option.none` stands for `None` and truthiness of
  strings is modelled by `truthyS`);
* the mutable buffers become pure state-passing functions;
* the telemetry side effects of `cleanup`, `__next__`, `__exit__` and
  `close` become an explicit list of operations (`Op`); operations may be
  interrupted by an externally injected exception (`runProg`), and the
  deterministic crashes of `cleanup` itself (attribute access on a `None`
  placeholder buffer, `str.join` over a `None` fragment) are modelled with
  `Except`.
-/

namespace OpenAIV2

/-- A Python exception value: the `__qualname__` of its type and `str(e)`. -/
structure PyException where
  ty : String
  msg : String
deriving DecidableEq, Repr

/-- Python truthiness of an optional string (`None` and `""` are falsy). -/
def truthyS : Option String → Bool
  | none => false
  | some s => !s.isEmpty

/-- One element of `choice.delta.tool_calls`: fields `index`, `id`,
`function.name`, `function.arguments` of a streamed tool-call delta. -/
structure ToolCallDelta where
  index : Nat
  id : Option String
  function_name : Option String
  arguments : Option String
deriving DecidableEq, Repr

/-- The `delta` member of a streamed choice. -/
structure ChoiceDelta where
  content : Option String
  tool_calls : Option (List ToolCallDelta)
deriving DecidableEq, Repr

/-- One element of `chunk.choices`. -/
structure ChunkChoice where
  index : Nat
  finish_reason : Option String
  delta : Option ChoiceDelta
deriving DecidableEq, Repr

/-- The `usage` member of a chunk. -/
structure Usage where
  prompt_tokens : Nat
  completion_tokens : Nat
deriving DecidableEq, Repr

/-- A streamed response chunk, with every optional field explicit. -/
structure Chunk where
  id : Option String
  model : Option String
  service_tier : Option String
  usage : Option Usage
  choices : Option (List ChunkChoice)
deriving DecidableEq, Repr

/-- The Python class `ToolCallBuffer` (fields in declaration order). -/
structure ToolCallBuffer where
  index : Nat
  function_name : Option String
  tool_call_id : Option String
  arguments : List (Option String)
deriving DecidableEq, Repr

/-- The Python class `ChoiceBuffer`. -/
structure ChoiceBuffer where
  index : Nat
  finish_reason : Option String
  text_content : List String
  tool_calls_buffers : List (Option ToolCallBuffer)
deriving DecidableEq, Repr

/-- `ChoiceBuffer.__init__`. -/
def ChoiceBuffer.init (i : Nat) : ChoiceBuffer := ⟨i, none, [], []⟩

/-- The accumulating state of a `StreamWrapper` instance.  `finish_reasons`
is the class attribute `finish_reasons: list = []`; `span_started` is
`_span_started`, set by `setup()` from `__init__`. -/
structure StreamWrapperState where
  response_id : Option String
  response_model : Option String
  service_tier : Option String
  finish_reasons : List String
  prompt_tokens : Nat
  completion_tokens : Nat
  choice_buffers : List ChoiceBuffer
  span_started : Bool
deriving DecidableEq, Repr

/-- A freshly constructed `StreamWrapper` (after `setup()`). -/
def initState : StreamWrapperState :=
  ⟨none, none, none, [], 0, 0, [], true⟩

/-- Indexing with a default, mirroring Python list indexing that the code
only performs after guaranteeing the index is in range. -/
def nthOr {α : Type} (dflt : α) : List α → Nat → α
  | [], _ => dflt
  | a :: _, 0 => a
  | _ :: rest, n + 1 => nthOr dflt rest n

/-- In-place list element assignment `l[i] = v`. -/
def listSet {α : Type} : Nat → α → List α → List α
  | _, _, [] => []
  | 0, v, _ :: rest => v :: rest
  | n + 1, v, a :: rest => a :: listSet n v rest

/-- In-place list element mutation. -/
def listModify {α : Type} : Nat → (α → α) → List α → List α
  | _, _, [] => []
  | 0, f, a :: rest => f a :: rest
  | n + 1, f, a :: rest => a :: listModify n f rest

/-- `ChoiceBuffer.append_tool_call`: pad `tool_calls_buffers` with `None`
up to the delta index, create the `ToolCallBuffer` from this delta if the
slot is still falsy, then append the delta's `function.arguments`. -/
def ChoiceBuffer.append_tool_call (cb : ChoiceBuffer) (tc : ToolCallDelta) :
    ChoiceBuffer :=
  let bufs := cb.tool_calls_buffers ++
    List.replicate (tc.index + 1 - cb.tool_calls_buffers.length)
      (none : Option ToolCallBuffer)
  let b0 : ToolCallBuffer :=
    match nthOr none bufs tc.index with
    | some b => b
    | none => ⟨tc.index, tc.function_name, tc.id, []⟩
  let b1 : ToolCallBuffer := { b0 with arguments := b0.arguments ++ [tc.arguments] }
  { cb with tool_calls_buffers := listSet tc.index (some b1) bufs }

/-- The choice-buffer padding loop of `build_streaming_response`:
`for idx in range(len(self.choice_buffers), choice.index + 1)`. -/
def ensureChoiceBuffers (l : List ChoiceBuffer) (target : Nat) :
    List ChoiceBuffer :=
  l ++ (List.range' l.length (target + 1 - l.length)).map ChoiceBuffer.init

/-- `if choice.finish_reason: self.choice_buffers[choice.index].finish_reason = ...`. -/
def applyFinish (ch : ChunkChoice) (bufs : List ChoiceBuffer) :
    List ChoiceBuffer :=
  if truthyS ch.finish_reason then
    listModify ch.index (fun cb => { cb with finish_reason := ch.finish_reason }) bufs
  else bufs

/-- `if choice.delta.content is not None: ...append_text_content(...)`. -/
def applyContent (ch : ChunkChoice) (d : ChoiceDelta)
    (bufs : List ChoiceBuffer) : List ChoiceBuffer :=
  match d.content with
  | some s =>
    listModify ch.index (fun cb => { cb with text_content := cb.text_content ++ [s] }) bufs
  | none => bufs

/-- `if choice.delta.tool_calls is not None: ...append_tool_call(...)`. -/
def applyToolCalls (ch : ChunkChoice) (d : ChoiceDelta)
    (bufs : List ChoiceBuffer) : List ChoiceBuffer :=
  match d.tool_calls with
  | some tcs =>
    listModify ch.index (fun cb => tcs.foldl ChoiceBuffer.append_tool_call cb) bufs
  | none => bufs

/-- The per-choice body of the loop in `build_streaming_response`.  An
entry whose `delta` is falsy is skipped entirely (`if not choice.delta:
continue`); otherwise the buffer list is padded and the three delta parts
are applied in source order. -/
def processChoice (w : StreamWrapperState) (ch : ChunkChoice) :
    StreamWrapperState :=
  match ch.delta with
  | none => w
  | some d =>
    { w with choice_buffers :=
        applyToolCalls ch d (applyContent ch d
          (applyFinish ch (ensureChoiceBuffers w.choice_buffers ch.index))) }

/-- `StreamWrapper.build_streaming_response`. -/
def build_streaming_response (w : StreamWrapperState) (c : Chunk) :
    StreamWrapperState :=
  match c.choices with
  | none => w
  | some chs => chs.foldl processChoice w

/-- `StreamWrapper.set_response_id` (first truthy write wins). -/
def set_response_id (w : StreamWrapperState) (c : Chunk) : StreamWrapperState :=
  if truthyS w.response_id then w
  else if truthyS c.id then { w with response_id := c.id } else w

/-- `StreamWrapper.set_response_model`. -/
def set_response_model (w : StreamWrapperState) (c : Chunk) : StreamWrapperState :=
  if truthyS w.response_model then w
  else if truthyS c.model then { w with response_model := c.model } else w

/-- `StreamWrapper.set_response_service_tier`. -/
def set_response_service_tier (w : StreamWrapperState) (c : Chunk) :
    StreamWrapperState :=
  if truthyS w.service_tier then w
  else if truthyS c.service_tier then { w with service_tier := c.service_tier } else w

/-- `StreamWrapper.set_usage` (last usage-bearing chunk wins). -/
def set_usage (w : StreamWrapperState) (c : Chunk) : StreamWrapperState :=
  match c.usage with
  | some u =>
    { w with completion_tokens := u.completion_tokens, prompt_tokens := u.prompt_tokens }
  | none => w

/-- `StreamWrapper.process_chunk`: the fold step, in source order. -/
def process_chunk (w : StreamWrapperState) (c : Chunk) : StreamWrapperState :=
  set_usage
    (build_streaming_response
      (set_response_service_tier (set_response_model (set_response_id w c) c) c) c) c

/-- Feeding a whole chunk sequence to a fresh wrapper. -/
def foldChunks (cs : List Chunk) : StreamWrapperState :=
  cs.foldl process_chunk initState

/-! ### Semantic-convention attribute keys used by `cleanup` -/

def GEN_AI_RESPONSE_MODEL : String := "gen_ai.response.model"

def GEN_AI_RESPONSE_ID : String := "gen_ai.response.id"

def GEN_AI_USAGE_INPUT_TOKENS : String := "gen_ai.usage.input_tokens"

def GEN_AI_USAGE_OUTPUT_TOKENS : String := "gen_ai.usage.output_tokens"

def GEN_AI_OPENAI_RESPONSE_SERVICE_TIER : String :=
  "gen_ai.openai.response.service_tier"

def GEN_AI_RESPONSE_FINISH_REASONS : String := "gen_ai.response.finish_reasons"

def ERROR_TYPE : String := "error.type"

/-- A span-attribute value. -/
inductive AttrValue where
  | str : String → AttrValue
  | num : Nat → AttrValue
  | strList : List String → AttrValue
  | null : AttrValue
deriving DecidableEq, Repr

/-- The Python value passed where the source may pass `None`. -/
def optAttr : Option String → AttrValue
  | some s => AttrValue.str s
  | none => AttrValue.null

/-- The `tool_call_dict` built in `cleanup`: `{"id": ..., "type":
"function", "function": {"name": ..., "arguments": ...}}`; `arguments`
is present only under content capture. -/
structure ToolCallDict where
  id : Option String
  call_type : String
  function_name : Option String
  arguments : Option String
deriving DecidableEq, Repr

/-- The `message` member of a `gen_ai.choice` event body. -/
structure ChoiceMessage where
  role : String
  content : Option String
  tool_calls : Option (List ToolCallDict)
deriving DecidableEq, Repr

/-- The body of one `gen_ai.choice` summary event. -/
structure ChoiceEvent where
  index : Nat
  finish_reason : String
  message : ChoiceMessage
deriving DecidableEq, Repr

/-- An external telemetry/resource operation performed by the wrapper.
Event emission carries the structured body; the span-context identifiers
attached to the emitted `Event` are opaque pass-through values and are not
modelled. -/
inductive Op where
  | setAttr : String → AttrValue → Op
  | setStatusError : String → Op
  | emit : ChoiceEvent → Op
  | endSpan : Op
  | closeStream : Op
deriving DecidableEq, Repr

/-- Modelled from the spec: the helper `set_span_attribute` is defined in
`utils.py`, which is not among the sources; the spec (section 6, external
interfaces) describes the span mutation operation simply as
`set-attribute(key, value)`, so the helper is modelled as forwarding the
key/value pair to the span unchanged. -/
def set_span_attribute (key : String) (v : AttrValue) : Op :=
  Op.setAttr key v

/-- Python `x or dflt` for an optional string. -/
def pyOr (o : Option String) (dflt : String) : String :=
  match o with
  | some s => if s.isEmpty then dflt else s
  | none => dflt

/-- Ordered concatenation of string fragments. -/
def concatStr : List String → String
  | [] => ""
  | s :: rest => s ++ concatStr rest

/-- Python `"".join(fragments)`: raises `TypeError` if a fragment is
`None`, otherwise concatenates in order. -/
def joinStrict : List (Option String) → Except PyException String
  | [] => Except.ok ""
  | none :: _ =>
    Except.error ⟨"TypeError", "sequence item: expected str instance, NoneType found"⟩
  | some s :: rest =>
    match joinStrict rest with
    | Except.error e => Except.error e
    | Except.ok r => Except.ok (s ++ r)

/-- The tool-call loop of `cleanup`: iterating a `None` placeholder buffer
raises `AttributeError` at `tool_call.function_name`. -/
def buildToolCalls (capture : Bool) :
    List (Option ToolCallBuffer) → Except PyException (List ToolCallDict)
  | [] => Except.ok []
  | none :: _ =>
    Except.error ⟨"AttributeError", "NoneType object has no attribute function_name"⟩
  | some b :: rest =>
    match (if capture then Except.map Option.some (joinStrict b.arguments)
           else Except.ok none) with
    | Except.error e => Except.error e
    | Except.ok args =>
      match buildToolCalls capture rest with
      | Except.error e => Except.error e
      | Except.ok others =>
        Except.ok (⟨b.tool_call_id, "function", b.function_name, args⟩ :: others)

/-- The per-choice event body built in `cleanup`:  role is the literal
`"assistant"`, `content` is included when capture is on and the fragment
list is truthy (nonempty), `tool_calls` when the buffer list is truthy. -/
def choiceEventOf (capture : Bool) (idx : Nat) (cb : ChoiceBuffer) :
    Except PyException ChoiceEvent :=
  let content : Option String :=
    if capture && !cb.text_content.isEmpty then some (concatStr cb.text_content)
    else none
  match (if !cb.tool_calls_buffers.isEmpty then
          Except.map Option.some (buildToolCalls capture cb.tool_calls_buffers)
         else Except.ok none) with
  | Except.error e => Except.error e
  | Except.ok tcs =>
    Except.ok ⟨idx, pyOr cb.finish_reason "error", ⟨"assistant", content, tcs⟩⟩

/-- The `enumerate(self.choice_buffers)` loop of `cleanup`: events built in
index order until the first deterministic crash. -/
def choiceEvents (capture : Bool) :
    Nat → List ChoiceBuffer → List ChoiceEvent × Option PyException
  | _, [] => ([], none)
  | idx, cb :: rest =>
    match choiceEventOf capture idx cb with
    | Except.error e => ([], some e)
    | Except.ok ev =>
      let r := choiceEvents capture (idx + 1) rest
      (ev :: r.1, r.2)

/-- The scalar attribute writes at the head of `cleanup`, in source order. -/
def cleanupAttrOps (w : StreamWrapperState) : List Op :=
  (if truthyS w.response_model then
    [set_span_attribute GEN_AI_RESPONSE_MODEL (AttrValue.str (w.response_model.getD ""))]
   else []) ++
  (if truthyS w.response_id then
    [set_span_attribute GEN_AI_RESPONSE_ID (AttrValue.str (w.response_id.getD ""))]
   else []) ++
  [set_span_attribute GEN_AI_USAGE_INPUT_TOKENS (AttrValue.num w.prompt_tokens),
   set_span_attribute GEN_AI_USAGE_OUTPUT_TOKENS (AttrValue.num w.completion_tokens),
   set_span_attribute GEN_AI_OPENAI_RESPONSE_SERVICE_TIER (optAttr w.service_tier),
   set_span_attribute GEN_AI_RESPONSE_FINISH_REASONS (AttrValue.strList w.finish_reasons)]

/-- The straight-line external-operation program of `cleanup` for a started
wrapper, together with the deterministic crash (if any) that interrupts it:
attribute writes, then one event emission per choice in index order, then
`span.end()`.  When building an event body crashes, the program stops
before `span.end()`. -/
def cleanupProg (capture : Bool) (w : StreamWrapperState) :
    List Op × Option PyException :=
  let ce := choiceEvents capture 0 w.choice_buffers
  let ops := cleanupAttrOps w ++ ce.1.map Op.emit
  match ce.2 with
  | some e => (ops, some e)
  | none => (ops ++ [Op.endSpan], none)

/-- Executes a straight-line operation program under an external fault
model `g` (position-indexed): returns the operations performed, the
injected exception (if any), and the next position. -/
def runProg (g : Nat → Option PyException) :
    Nat → List Op → List Op × Option PyException × Nat
  | k, [] => ([], none, k)
  | k, op :: rest =>
    match g k with
    | some e => ([], some e, k)
    | none =>
      let r := runProg g (k + 1) rest
      (op :: r.1, r.2.1, r.2.2)

/-- The fault model in which every external operation succeeds. -/
def noFault : Nat → Option PyException := fun _ => none

/-- The observable outcome of one wrapper method call: the resulting
state, the external operations performed, and the exception propagated to
the caller (if any). -/
structure RunOut where
  w : StreamWrapperState
  ops : List Op
  raised : Option PyException
deriving DecidableEq, Repr

/-- `StreamWrapper.cleanup` under fault model `g` starting at position
`k`: a no-op when `_span_started` is false; otherwise runs the program and
resets `_span_started` only if everything (including `span.end()`)
succeeded — the reset is the last statement of the method. -/
def cleanupRun (g : Nat → Option PyException) (k : Nat) (capture : Bool)
    (w : StreamWrapperState) : RunOut × Nat :=
  if w.span_started then
    let p := cleanupProg capture w
    let r := runProg g k p.1
    let raised : Option PyException :=
      match r.2.1 with
      | some e => some e
      | none => p.2
    (⟨{ w with span_started := raised.isSome }, r.1, raised⟩, r.2.2)
  else (⟨w, [], none⟩, k)

/-- The `except StopIteration` branch of `StreamWrapper.__next__`:
`cleanup()` then re-`raise`; an exception from `cleanup` propagates in
place of the `StopIteration`. -/
def nextExhaustRun (g : Nat → Option PyException) (capture : Bool)
    (w : StreamWrapperState) : RunOut :=
  let r := (cleanupRun g 0 capture w).1
  match r.raised with
  | some e2 => ⟨r.w, r.ops, some e2⟩
  | none => ⟨r.w, r.ops, some ⟨"StopIteration", ""⟩⟩

/-- The `except Exception as error` branch of `StreamWrapper.__next__`:
set error status and `error.type`, `cleanup()`, then re-`raise` the
original error; an exception raised before the bare `raise` propagates
instead. -/
def nextErrRun (g : Nat → Option PyException) (capture : Bool)
    (w : StreamWrapperState) (e : PyException) : RunOut :=
  let pre : List Op :=
    [Op.setStatusError e.msg, Op.setAttr ERROR_TYPE (AttrValue.str e.ty)]
  let pr := runProg g 0 pre
  match pr.2.1 with
  | some e2 => ⟨w, pr.1, some e2⟩
  | none =>
    let r := (cleanupRun g pr.2.2 capture w).1
    match r.raised with
    | some e2 => ⟨r.w, pr.1 ++ r.ops, some e2⟩
    | none => ⟨r.w, pr.1 ++ r.ops, some e⟩

/-- `StreamWrapper.close`: `self.stream.close()` then `cleanup()`. -/
def closeRun (g : Nat → Option PyException) (capture : Bool)
    (w : StreamWrapperState) : RunOut :=
  let pr := runProg g 0 [Op.closeStream]
  match pr.2.1 with
  | some e2 => ⟨w, pr.1, some e2⟩
  | none =>
    let r := (cleanupRun g pr.2.2 capture w).1
    ⟨r.w, pr.1 ++ r.ops, r.raised⟩

/-- `StreamWrapper.__exit__`: in a `try`, record status and `error.type`
when an exception is in flight; in the `finally`, `cleanup()`; then
`return False` (the boolean component), i.e. never suppress the in-flight
exception. -/
def exitRun (g : Nat → Option PyException) (capture : Bool)
    (w : StreamWrapperState) (exc : Option PyException) : RunOut × Bool :=
  let pre : List Op :=
    match exc with
    | some e => [Op.setStatusError e.msg, Op.setAttr ERROR_TYPE (AttrValue.str e.ty)]
    | none => []
  let pr := runProg g 0 pre
  let r := (cleanupRun g pr.2.2 capture w).1
  let raised : Option PyException :=
    match r.raised with
    | some e2 => some e2
    | none => pr.2.1
  (⟨r.w, pr.1 ++ r.ops, raised⟩, false)

/-! ### Termination triggers (fault-free driver for lifecycle claims) -/

/-- A termination trigger applied to the wrapper. -/
inductive Trigger where
  | exhaust : Trigger
  | closeIt : Trigger
  | exitClean : Trigger
  | exitExc : PyException → Trigger
  | nextErr : PyException → Trigger
deriving DecidableEq, Repr

/-- Runs one trigger with every external telemetry operation succeeding. -/
def triggerRun (capture : Bool) (w : StreamWrapperState) : Trigger → RunOut
  | Trigger.exhaust => nextExhaustRun noFault capture w
  | Trigger.closeIt => closeRun noFault capture w
  | Trigger.exitClean => (exitRun noFault capture w none).1
  | Trigger.exitExc e => (exitRun noFault capture w (some e)).1
  | Trigger.nextErr e => nextErrRun noFault capture w e

/-- Runs a sequence of triggers, concatenating the operations performed. -/
def runTriggers (capture : Bool) :
    StreamWrapperState → List Trigger → StreamWrapperState × List Op
  | w, [] => (w, [])
  | w, t :: ts =>
    let r := triggerRun capture w t
    let rest := runTriggers capture r.w ts
    (rest.1, r.ops ++ rest.2)

/-- A full streaming session: the chunks yielded by successful
`__next__` calls (which perform no span operations), then the termination
triggers. -/
def streamRun (capture : Bool) (cs : List Chunk) (ts : List Trigger) :
    StreamWrapperState × List Op :=
  runTriggers capture (foldChunks cs) ts

/-- Whether an operation is a summary-event emission. -/
def isEmit : Op → Bool
  | Op.emit _ => true
  | _ => false

/-- The first value written for the finish-reasons attribute key, if any. -/
def finishReasonsWritten : List Op → Option AttrValue
  | [] => none
  | Op.setAttr k v :: rest =>
    if k = GEN_AI_RESPONSE_FINISH_REASONS then some v else finishReasonsWritten rest
  | _ :: rest => finishReasonsWritten rest

/-- Number of `span.end()` calls in an operation trace. -/
def countEnd : List Op → Nat
  | [] => 0
  | Op.endSpan :: rest => countEnd rest + 1
  | _ :: rest => countEnd rest

/-- The summary-event bodies emitted in an operation trace, in order. -/
def emitted : List Op → List ChoiceEvent
  | [] => []
  | Op.emit ev :: rest => ev :: emitted rest
  | _ :: rest => emitted rest

/-- The operations a trigger performs before invoking `cleanup`. -/
def preOpsOf : Trigger → List Op
  | Trigger.exhaust => []
  | Trigger.closeIt => [Op.closeStream]
  | Trigger.exitClean => []
  | Trigger.exitExc e =>
    [Op.setStatusError e.msg, Op.setAttr ERROR_TYPE (AttrValue.str e.ty)]
  | Trigger.nextErr e =>
    [Op.setStatusError e.msg, Op.setAttr ERROR_TYPE (AttrValue.str e.ty)]

/-- The text fragments accumulated at a given choice position. -/
def textAtBufs : List ChoiceBuffer → Nat → List String
  | [], _ => []
  | cb :: _, 0 => cb.text_content
  | _ :: rest, n + 1 => textAtBufs rest n

/-- The text fragments of the wrapper at a given choice index. -/
def textAt (w : StreamWrapperState) (i : Nat) : List String :=
  textAtBufs w.choice_buffers i

/-- Concatenation of a list of lists. -/
def catLists {α : Type} : List (List α) → List α
  | [] => []
  | l :: rest => l ++ catLists rest

/-- The content fragments a single per-choice entry contributes to choice
index `i`: nothing if its delta is null or it targets another index, the
(`possibly empty`) fragment if `delta.content` is non-null. -/
def choiceFragments (i : Nat) (ch : ChunkChoice) : List String :=
  match ch.delta with
  | none => []
  | some d =>
    if ch.index = i then
      match d.content with
      | some s => [s]
      | none => []
    else []

/-- The content fragments a chunk contributes to choice index `i`. -/
def chunkFragments (i : Nat) (c : Chunk) : List String :=
  match c.choices with
  | none => []
  | some l => catLists (l.map (choiceFragments i))

/-- All content fragments a chunk sequence contributes to choice index
`i`, in arrival order. -/
def contentFragments (i : Nat) (cs : List Chunk) : List String :=
  catLists (cs.map (chunkFragments i))

/-! ### Concrete inputs used by counterexamples and bug evaluations -/

/-- A chunk whose only choice carries a tool-call delta at sub-index 1
before sub-index 0 exists. -/
def chunkToolIdx1 : Chunk :=
  ⟨none, none, none, none,
   some [⟨0, none, some ⟨none, some [⟨1, some "i", some "f", some "x"⟩]⟩⟩]⟩

/-- A chunk whose only choice carries a tool-call delta at sub-index 2
before sub-indices 0 and 1 exist. -/
def chunkToolIdx2 : Chunk :=
  ⟨none, none, none, none,
   some [⟨0, none, some ⟨none, some [⟨2, some "i2", some "f2", some "x2"⟩]⟩⟩]⟩

/-- A chunk whose only choice carries `finish_reason = "stop"` and an
otherwise empty delta. -/
def chunkStop : Chunk :=
  ⟨none, none, none, none, some [⟨0, some "stop", some ⟨none, none⟩⟩]⟩

/-- A chunk whose only choice carries the empty-string content delta. -/
def chunkEmptyContent : Chunk :=
  ⟨none, none, none, none, some [⟨0, none, some ⟨some "", none⟩⟩]⟩

/-- A started wrapper holding one choice buffer with one text fragment. -/
def wOneText : StreamWrapperState :=
  ⟨none, none, none, [], 0, 0, [⟨0, some "stop", ["hi"], []⟩], true⟩

/-- A fault model failing the first external operation. -/
def faultAt0 : Nat → Option PyException :=
  fun n => if n = 0 then some ⟨"TelemetryError", "boom"⟩ else none

/-- A fault model failing the third external operation (the first
operation of `cleanup` when two status operations precede it). -/
def faultAt2 : Nat → Option PyException :=
  fun n => if n = 2 then some ⟨"TelemetryError", "boom"⟩ else none

/-! ### Basic lemmas about the execution machinery -/

theorem runProg_noFault : ∀ (l : List Op) (k : Nat),
    runProg noFault k l = (l, none, k + l.length) := by
  intro l
  induction l with
  | nil => intro k; simp [runProg]
  | cons op rest ih =>
    intro k
    simp [runProg, noFault, ih (k + 1)]
    omega

theorem cleanupRun_not_started (g : Nat → Option PyException) (k : Nat)
    (capture : Bool) (w : StreamWrapperState) (hs : w.span_started = false) :
    cleanupRun g k capture w = (⟨w, [], none⟩, k) := by
  simp [cleanupRun, hs]

theorem cleanupProg_ops (capture : Bool) (w : StreamWrapperState)
    (hc : (cleanupProg capture w).2 = none) :
    (cleanupProg capture w).1 =
      cleanupAttrOps w ++
        ((choiceEvents capture 0 w.choice_buffers).1.map Op.emit ++ [Op.endSpan]) := by
  unfold cleanupProg at hc ⊢
  cases h : (choiceEvents capture 0 w.choice_buffers).2 with
  | some e => simp [h] at hc
  | none => simp [h, List.append_assoc]

theorem cleanupRun_noFault_ok (k : Nat) (capture : Bool)
    (w : StreamWrapperState) (hs : w.span_started = true)
    (hc : (cleanupProg capture w).2 = none) :
    (cleanupRun noFault k capture w).1 =
      ⟨{ w with span_started := false }, (cleanupProg capture w).1, none⟩ := by
  simp [cleanupRun, hs, runProg_noFault, hc]

theorem countEnd_append (l m : List Op) :
    countEnd (l ++ m) = countEnd l + countEnd m := by
  induction l with
  | nil => simp [countEnd]
  | cons op rest ih => cases op <;> simp [countEnd, ih] <;> omega

theorem emitted_append (l m : List Op) :
    emitted (l ++ m) = emitted l ++ emitted m := by
  induction l with
  | nil => simp [emitted]
  | cons op rest ih => cases op <;> simp [emitted, ih]

theorem countEnd_attrOps (w : StreamWrapperState) :
    countEnd (cleanupAttrOps w) = 0 := by
  unfold cleanupAttrOps set_span_attribute
  split <;> split <;> rfl

theorem emitted_attrOps (w : StreamWrapperState) :
    emitted (cleanupAttrOps w) = [] := by
  unfold cleanupAttrOps set_span_attribute
  split <;> split <;> rfl

theorem emit_not_mem_attrOps (w : StreamWrapperState) (ev : ChoiceEvent) :
    Op.emit ev ∉ cleanupAttrOps w := by
  unfold cleanupAttrOps set_span_attribute
  split <;> split <;> simp

theorem countEnd_map_emit (l : List ChoiceEvent) :
    countEnd (l.map Op.emit) = 0 := by
  induction l with
  | nil => rfl
  | cons ev rest ih => simp [countEnd, ih]

theorem emitted_map_emit (l : List ChoiceEvent) :
    emitted (l.map Op.emit) = l := by
  induction l with
  | nil => rfl
  | cons ev rest ih => simp [emitted, ih]

theorem countEnd_cleanupProg (capture : Bool) (w : StreamWrapperState)
    (hc : (cleanupProg capture w).2 = none) :
    countEnd (cleanupProg capture w).1 = 1 := by
  rw [cleanupProg_ops capture w hc, countEnd_append, countEnd_append,
    countEnd_attrOps, countEnd_map_emit]
  rfl

theorem emitted_cleanupProg (capture : Bool) (w : StreamWrapperState)
    (hc : (cleanupProg capture w).2 = none) :
    emitted (cleanupProg capture w).1 =
      (choiceEvents capture 0 w.choice_buffers).1 := by
  rw [cleanupProg_ops capture w hc, emitted_append, emitted_append,
    emitted_attrOps, emitted_map_emit]
  simp [emitted]

theorem countEnd_preOps (t : Trigger) : countEnd (preOpsOf t) = 0 := by
  cases t <;> rfl

theorem emitted_preOps (t : Trigger) : emitted (preOpsOf t) = [] := by
  cases t <;> rfl

/-! ### The fold step never touches the span lifecycle flag -/

theorem span_started_processChoice (w : StreamWrapperState) (ch : ChunkChoice) :
    (processChoice w ch).span_started = w.span_started := by
  unfold processChoice
  cases ch.delta <;> rfl

theorem span_started_foldChoices (l : List ChunkChoice) :
    ∀ w : StreamWrapperState,
      (l.foldl processChoice w).span_started = w.span_started := by
  induction l with
  | nil => intro w; rfl
  | cons ch rest ih =>
    intro w
    rw [List.foldl_cons, ih, span_started_processChoice]

theorem span_started_set_response_id (w : StreamWrapperState) (c : Chunk) :
    (set_response_id w c).span_started = w.span_started := by
  unfold set_response_id
  split
  · rfl
  · split <;> rfl

theorem span_started_set_response_model (w : StreamWrapperState) (c : Chunk) :
    (set_response_model w c).span_started = w.span_started := by
  unfold set_response_model
  split
  · rfl
  · split <;> rfl

theorem span_started_set_response_service_tier (w : StreamWrapperState)
    (c : Chunk) :
    (set_response_service_tier w c).span_started = w.span_started := by
  unfold set_response_service_tier
  split
  · rfl
  · split <;> rfl

theorem span_started_set_usage (w : StreamWrapperState) (c : Chunk) :
    (set_usage w c).span_started = w.span_started := by
  unfold set_usage
  split <;> rfl

theorem span_started_bsr (w : StreamWrapperState) (c : Chunk) :
    (build_streaming_response w c).span_started = w.span_started := by
  unfold build_streaming_response
  split
  · rfl
  · rw [span_started_foldChoices]

theorem span_started_process_chunk (w : StreamWrapperState) (c : Chunk) :
    (process_chunk w c).span_started = w.span_started := by
  unfold process_chunk
  rw [span_started_set_usage, span_started_bsr,
    span_started_set_response_service_tier, span_started_set_response_model,
    span_started_set_response_id]

theorem span_started_foldChunks (cs : List Chunk) :
    (foldChunks cs).span_started = true := by
  unfold foldChunks
  have h : ∀ (l : List Chunk) (w : StreamWrapperState),
      (l.foldl process_chunk w).span_started = w.span_started := by
    intro l
    induction l with
    | nil => intro w; rfl
    | cons c rest ih =>
      intro w
      rw [List.foldl_cons, ih, span_started_process_chunk]
  rw [h]
  rfl

/-! ### Trigger-level lemmas -/

theorem triggerRun_started (capture : Bool) (w : StreamWrapperState)
    (t : Trigger) (hs : w.span_started = true)
    (hc : (cleanupProg capture w).2 = none) :
    (triggerRun capture w t).ops = preOpsOf t ++ (cleanupProg capture w).1 ∧
    (triggerRun capture w t).w = { w with span_started := false } := by
  have hcr : ∀ k, (cleanupRun noFault k capture w).1 =
      ⟨{ w with span_started := false }, (cleanupProg capture w).1, none⟩ :=
    fun k => cleanupRun_noFault_ok k capture w hs hc
  cases t <;>
    simp [triggerRun, nextExhaustRun, closeRun, exitRun, nextErrRun,
      runProg_noFault, hcr, preOpsOf]

theorem triggerRun_finalized (capture : Bool) (w : StreamWrapperState)
    (t : Trigger) (hs : w.span_started = false) :
    (triggerRun capture w t).w = w ∧
    countEnd (triggerRun capture w t).ops = 0 ∧
    emitted (triggerRun capture w t).ops = [] := by
  have hcr : ∀ k, cleanupRun noFault k capture w = (⟨w, [], none⟩, k) :=
    fun k => cleanupRun_not_started noFault k capture w hs
  cases t <;>
    simp [triggerRun, nextExhaustRun, closeRun, exitRun, nextErrRun,
      runProg_noFault, hcr, countEnd, emitted, countEnd_append, emitted_append]

theorem runTriggers_finalized (capture : Bool) :
    ∀ (ts : List Trigger) (w : StreamWrapperState), w.span_started = false →
      countEnd (runTriggers capture w ts).2 = 0 ∧
      emitted (runTriggers capture w ts).2 = [] := by
  intro ts
  induction ts with
  | nil => intro w _; exact ⟨rfl, rfl⟩
  | cons t rest ih =>
    intro w hs
    obtain ⟨hw, hcnt, hem⟩ := triggerRun_finalized capture w t hs
    have hs2 : (triggerRun capture w t).w.span_started = false := by
      rw [hw]; exact hs
    obtain ⟨ih1, ih2⟩ := ih (triggerRun capture w t).w hs2
    refine ⟨?_, ?_⟩
    · simp [runTriggers, countEnd_append, hcnt, ih1]
    · simp [runTriggers, emitted_append, hem, ih2]

/-! ### Claim C1 -/

/-- Claim C1, counterexample: on a chunk whose only choice carries a
tool-call delta at sub-index 1 (leaving a `None` placeholder at
sub-index 0), iterator exhaustion triggers `cleanup`, which crashes while
building the summary event before reaching `span.end()`: the span is ended
zero times, not exactly once, refuting the claim for this sequence of
chunks. -/
theorem C1_counterexample :
    countEnd (streamRun false [chunkToolIdx1] [Trigger.exhaust]).2 = 0 := by
  rfl

/-- Claim C1 (amended): for every sequence of chunks whose accumulated
state finalizes without an internal error (in particular whenever every
created tool-call buffer slot was populated), and for every nonempty
combination of termination triggers (iterator exhaustion, explicit close,
scoped exit with or without an in-flight exception, a stream error during
produce-next-chunk), `span.end()` is performed exactly once across the
whole run and the summary events are emitted exactly once; repeated
triggers after finalization perform no further span-end and no further
emission. -/
theorem C1_amended_single_finalize (capture : Bool) (cs : List Chunk)
    (t : Trigger) (ts : List Trigger)
    (hc : (cleanupProg capture (foldChunks cs)).2 = none) :
    countEnd (streamRun capture cs (t :: ts)).2 = 1 ∧
    emitted (streamRun capture cs (t :: ts)).2 =
      (choiceEvents capture 0 (foldChunks cs).choice_buffers).1 := by
  have hs := span_started_foldChunks cs
  obtain ⟨hops, hw⟩ := triggerRun_started capture (foldChunks cs) t hs hc
  have hs2 : (triggerRun capture (foldChunks cs) t).w.span_started = false := by
    rw [hw]
  obtain ⟨h1, h2⟩ := runTriggers_finalized capture ts _ hs2
  refine ⟨?_, ?_⟩
  · simp [streamRun, runTriggers, countEnd_append, hops, h1,
      countEnd_preOps, countEnd_cleanupProg capture _ hc]
  · simp [streamRun, runTriggers, emitted_append, hops, h2,
      emitted_preOps, emitted_cleanupProg capture _ hc]

/-- Witness for the amended C1 at a concrete run: one chunk, then
exhaustion, an explicit close and a scoped exit. -/
theorem C1_amended_witness :
    countEnd (streamRun false [chunkStop]
      [Trigger.exhaust, Trigger.closeIt, Trigger.exitClean]).2 = 1 ∧
    emitted (streamRun false [chunkStop]
      [Trigger.exhaust, Trigger.closeIt, Trigger.exitClean]).2 =
      (choiceEvents false 0 (foldChunks [chunkStop]).choice_buffers).1 :=
  C1_amended_single_finalize false [chunkStop] Trigger.exhaust
    [Trigger.closeIt, Trigger.exitClean] (by rfl)

/-! ### Claim C2 -/

/-- Claim C2, counterexample: `cleanup` has no internal error handling, so
when the very first attribute write raises, no further operation is
performed, `span.end()` is never reached, the failure propagates to the
caller, and the wrapper is not even marked finalized. -/
theorem C2_counterexample :
    ((cleanupRun faultAt0 0 false initState).1).raised =
      some ⟨"TelemetryError", "boom"⟩ ∧
    countEnd ((cleanupRun faultAt0 0 false initState).1).ops = 0 ∧
    ((cleanupRun faultAt0 0 false initState).1).w.span_started = true :=
  ⟨rfl, rfl, rfl⟩

/-- Claim C2 (amended): finalize performs no internal error handling;
when no attribute-set or event-emission operation raises, `span.end()` is
reached (exactly once) and nothing propagates, but a raising operation
aborts finalize before `span.end()` and propagates to the caller. The
failure-free direction is proved here. -/
theorem C2_amended_span_end (k : Nat) (capture : Bool)
    (w : StreamWrapperState) (hs : w.span_started = true)
    (hc : (cleanupProg capture w).2 = none) :
    ((cleanupRun noFault k capture w).1).raised = none ∧
    countEnd ((cleanupRun noFault k capture w).1).ops = 1 ∧
    ((cleanupRun noFault k capture w).1).w.span_started = false := by
  rw [cleanupRun_noFault_ok k capture w hs hc]
  exact ⟨rfl, countEnd_cleanupProg capture w hc, rfl⟩

/-- Witness for the amended C2 on a fresh started wrapper. -/
theorem C2_amended_witness :
    ((cleanupRun noFault 0 false initState).1).raised = none ∧
    countEnd ((cleanupRun noFault 0 false initState).1).ops = 1 ∧
    ((cleanupRun noFault 0 false initState).1).w.span_started = false :=
  C2_amended_span_end 0 false initState rfl rfl

/-! ### Claim C3 -/

/-- Claim C3, counterexample: the stream raises a `JSONDecodeError`; the
first operation of `cleanup` then raises a `TelemetryError`.  Because the
bare `raise` re-raising the original error sits after the `cleanup()` call
with no protection, the `TelemetryError` propagates to the caller in place
of the original error: a failure inside finalize does mask the original
exception. -/
theorem C3_counterexample :
    (nextErrRun faultAt2 false initState ⟨"JSONDecodeError", "bad"⟩).raised =
      some ⟨"TelemetryError", "boom"⟩ ∧
    (nextErrRun faultAt2 false initState ⟨"JSONDecodeError", "bad"⟩).raised ≠
      some ⟨"JSONDecodeError", "bad"⟩ :=
  ⟨rfl, by decide⟩

/-- Claim C3 (amended): when the underlying stream raises a non-exhaustion
error during produce-next-chunk, the span status is set to error with the
error type name recorded, finalize runs to completion (ending the span
exactly once), and the exact original exception is re-raised to the
caller — provided finalize itself raises nothing; a failure inside
finalize propagates in place of (masking) the original exception. -/
theorem C3_amended_error_path (capture : Bool) (w : StreamWrapperState)
    (e : PyException) (hs : w.span_started = true)
    (hc : (cleanupProg capture w).2 = none) :
    (nextErrRun noFault capture w e).ops =
      Op.setStatusError e.msg :: Op.setAttr ERROR_TYPE (AttrValue.str e.ty) ::
        (cleanupProg capture w).1 ∧
    (nextErrRun noFault capture w e).raised = some e ∧
    countEnd (nextErrRun noFault capture w e).ops = 1 ∧
    (nextErrRun noFault capture w e).w.span_started = false := by
  have hcr : ∀ k, (cleanupRun noFault k capture w).1 =
      ⟨{ w with span_started := false }, (cleanupProg capture w).1, none⟩ :=
    fun k => cleanupRun_noFault_ok k capture w hs hc
  refine ⟨?_, ?_, ?_, ?_⟩ <;>
    simp [nextErrRun, runProg_noFault, hcr, countEnd,
      countEnd_cleanupProg capture w hc]

/-- Witness for the amended C3 on a fresh started wrapper and a concrete
decode error. -/
theorem C3_amended_witness :
    (nextErrRun noFault false initState ⟨"JSONDecodeError", "bad"⟩).ops =
      Op.setStatusError "bad" ::
        Op.setAttr ERROR_TYPE (AttrValue.str "JSONDecodeError") ::
        (cleanupProg false initState).1 ∧
    (nextErrRun noFault false initState ⟨"JSONDecodeError", "bad"⟩).raised =
      some ⟨"JSONDecodeError", "bad"⟩ ∧
    countEnd (nextErrRun noFault false initState ⟨"JSONDecodeError", "bad"⟩).ops = 1 ∧
    (nextErrRun noFault false initState ⟨"JSONDecodeError", "bad"⟩).w.span_started
      = false :=
  C3_amended_error_path false initState ⟨"JSONDecodeError", "bad"⟩ rfl rfl

/-! ### Claim C9 -/

/-- Claim C9: on scoped (context-manager) exit with an exception in
flight, the exception description (status) and type name (attribute) are
recorded on the span before any finalize operation runs, and the exit
handler returns `False`, i.e. always signals propagation and never
suppresses the in-flight exception. -/
theorem C9_exit_records_then_propagates (capture : Bool)
    (w : StreamWrapperState) (e : PyException) :
    (exitRun noFault capture w (some e)).1.ops =
      Op.setStatusError e.msg :: Op.setAttr ERROR_TYPE (AttrValue.str e.ty) ::
        ((cleanupRun noFault 2 capture w).1).ops ∧
    (exitRun noFault capture w (some e)).2 = false := by
  refine ⟨?_, rfl⟩
  simp [exitRun, runProg_noFault]

/-! ### Claim C4 -/

/-- Claim C4, bug evaluation: feeding one chunk whose only choice carries
`finish_reason = "stop"` accumulates that reason on the choice buffer, yet
the finish-reasons attribute written during `cleanup` is the value of
`StreamWrapper.finish_reasons` — a class attribute no code path ever
appends to — so the span receives `[]` instead of the aggregated
per-choice list `["stop"]`. -/
theorem C4_finish_reasons_eval :
    (foldChunks [chunkStop]).choice_buffers.map ChoiceBuffer.finish_reason =
      [some "stop"] ∧
    finishReasonsWritten
        ((cleanupRun noFault 0 false (foldChunks [chunkStop])).1).ops =
      some (AttrValue.strList []) ∧
    some (AttrValue.strList []) ≠ some (AttrValue.strList ["stop"]) :=
  ⟨rfl, rfl, by decide⟩

/-! ### Claim C8 -/

/-- Claim C8, bug evaluation: a tool-call delta at sub-index 2 arriving
before sub-indices 0 and 1 exist is accumulated without error (placeholder
slots are created and only slot 2 is populated), but finalization then
crashes: the summary-event loop of `cleanup` dereferences the `None`
placeholder (`tool_call.function_name`), raising `AttributeError` before
`span.end()` is reached. -/
theorem C8_placeholder_crash_eval :
    (foldChunks [chunkToolIdx2]).choice_buffers =
      [⟨0, none, [], [none, none, some ⟨2, some "f2", some "i2", [some "x2"]⟩]⟩] ∧
    ((cleanupRun noFault 0 false (foldChunks [chunkToolIdx2])).1).raised =
      some ⟨"AttributeError", "NoneType object has no attribute function_name"⟩ ∧
    countEnd ((cleanupRun noFault 0 false (foldChunks [chunkToolIdx2])).1).ops
      = 0 :=
  ⟨rfl, rfl, rfl⟩

/-! ### Claim C5 -/

theorem nthOr_replicate {α : Type} (d : α) :
    ∀ (m i : Nat), nthOr d (List.replicate m d) i = d := by
  intro m
  induction m with
  | zero => intro i; rfl
  | succ n ih =>
    intro i
    cases i with
    | zero => rfl
    | succ j => exact ih j

theorem nthOr_append_replicate {α : Type} (d : α) :
    ∀ (l : List α) (m i : Nat),
      nthOr d (l ++ List.replicate m d) i = nthOr d l i := by
  intro l
  induction l with
  | nil => intro m i; simpa [nthOr] using nthOr_replicate d m i
  | cons a rest ih =>
    intro m i
    cases i with
    | zero => rfl
    | succ j => exact ih m j

theorem nthOr_listSet_self {α : Type} (d v : α) :
    ∀ (l : List α) (i : Nat), i < l.length →
      nthOr d (listSet i v l) i = v := by
  intro l
  induction l with
  | nil => intro i h; simp at h
  | cons a rest ih =>
    intro i h
    cases i with
    | zero => rfl
    | succ j => exact ih j (by simpa using h)

theorem pad_length {α : Type} (x : α) (l : List α) (i : Nat) :
    i < (l ++ List.replicate (i + 1 - l.length) x).length := by
  simp [List.length_append, List.length_replicate]
  omega

theorem append_tool_call_slot_none (cb : ChoiceBuffer) (tc : ToolCallDelta)
    (h : nthOr none cb.tool_calls_buffers tc.index = none) :
    nthOr none (cb.append_tool_call tc).tool_calls_buffers tc.index =
      some ⟨tc.index, tc.function_name, tc.id, [tc.arguments]⟩ := by
  have hpad : nthOr none (cb.tool_calls_buffers ++
      List.replicate (tc.index + 1 - cb.tool_calls_buffers.length) none)
      tc.index = none := by
    rw [nthOr_append_replicate]; exact h
  unfold ChoiceBuffer.append_tool_call
  simp only [hpad]
  exact nthOr_listSet_self none _ _ tc.index (pad_length none _ tc.index)

theorem append_tool_call_slot_some (cb : ChoiceBuffer) (tc : ToolCallDelta)
    (b : ToolCallBuffer)
    (h : nthOr none cb.tool_calls_buffers tc.index = some b) :
    nthOr none (cb.append_tool_call tc).tool_calls_buffers tc.index =
      some { b with arguments := b.arguments ++ [tc.arguments] } := by
  have hpad : nthOr none (cb.tool_calls_buffers ++
      List.replicate (tc.index + 1 - cb.tool_calls_buffers.length) none)
      tc.index = some b := by
    rw [nthOr_append_replicate]; exact h
  unfold ChoiceBuffer.append_tool_call
  simp only [hpad]
  exact nthOr_listSet_self none _ _ tc.index (pad_length none _ tc.index)

theorem foldl_append_tool_call_args (i : Nat) :
    ∀ (ds : List ToolCallDelta) (cb : ChoiceBuffer) (b : ToolCallBuffer),
      nthOr none cb.tool_calls_buffers i = some b →
      (∀ d ∈ ds, d.index = i) →
      nthOr none ((ds.foldl ChoiceBuffer.append_tool_call cb).tool_calls_buffers) i
        = some { b with arguments := b.arguments ++ ds.map ToolCallDelta.arguments } := by
  intro ds
  induction ds with
  | nil => intro cb b h _; simpa using h
  | cons d rest ih =>
    intro cb b h hall
    have hd : d.index = i := hall d (List.mem_cons_self d rest)
    have hstep := append_tool_call_slot_some cb d b (by rw [hd]; exact h)
    rw [hd] at hstep
    have hrest := ih (cb.append_tool_call d) _ hstep
      (fun d2 h2 => hall d2 (List.mem_cons_of_mem _ h2))
    rw [List.foldl_cons, hrest]
    simp [List.append_assoc]

theorem joinStrict_map_some :
    ∀ ss : List String, joinStrict (ss.map Option.some) = Except.ok (concatStr ss) := by
  intro ss
  induction ss with
  | nil => rfl
  | cons s rest ih => simp [joinStrict, concatStr, ih]

/-- Claim C5, counterexample: two tool-call deltas for the pair (choice 0,
tool-call 0), the first with null id and null function name, the second
with `id1`/`f1`.  The recorded `call_id` and `function_name` are those of
the first delta (null), not the first non-null values observed (`id1`,
`f1`): buffer creation happens once, from whatever the first delta
carries. -/
theorem C5_counterexample :
    nthOr none
      ((([⟨0, none, none, some "a"⟩, ⟨0, some "id1", some "f1", some "b"⟩] :
          List ToolCallDelta).foldl ChoiceBuffer.append_tool_call
          (ChoiceBuffer.init 0)).tool_calls_buffers) 0 =
      some ⟨0, none, none, [some "a", some "b"]⟩ ∧
    (⟨0, none, none, [some "a", some "b"]⟩ : ToolCallBuffer).tool_call_id ≠
      some "id1" ∧
    (⟨0, none, none, [some "a", some "b"]⟩ : ToolCallBuffer).function_name ≠
      some "f1" :=
  ⟨rfl, by decide, by decide⟩

/-- Claim C5 (amended): for all tool-call deltas sharing the same (choice
index, tool-call index) pair, the accumulated fragment list is the ordered
sequence of every argument fragment seen for the pair, so the assembled
`arguments` string (when every fragment is a string) is their ordered
concatenation; the recorded call id and function name are the id and
function-name values carried by the very first delta observed for the pair
— possibly null — and are never overwritten by later deltas. -/
theorem C5_amended_first_delta_wins (i : Nat) (cb : ChoiceBuffer)
    (d0 : ToolCallDelta) (ds : List ToolCallDelta) (ss : List String)
    (h0 : nthOr none cb.tool_calls_buffers i = none)
    (hd0 : d0.index = i)
    (hds : ∀ d ∈ ds, d.index = i)
    (hss : (d0 :: ds).map ToolCallDelta.arguments = ss.map Option.some) :
    nthOr none
      (((d0 :: ds).foldl ChoiceBuffer.append_tool_call cb).tool_calls_buffers) i =
      some ⟨i, d0.function_name, d0.id, (d0 :: ds).map ToolCallDelta.arguments⟩ ∧
    joinStrict ((d0 :: ds).map ToolCallDelta.arguments) =
      Except.ok (concatStr ss) := by
  constructor
  · have hstep := append_tool_call_slot_none cb d0 (by rw [hd0]; exact h0)
    rw [hd0] at hstep
    rw [List.foldl_cons]
    rw [foldl_append_tool_call_args i ds (cb.append_tool_call d0) _ hstep hds]
    simp
  · rw [hss]
    exact joinStrict_map_some ss

/-- Witness for the amended C5: two deltas for pair (0, 0); the first
carries id, name and a fragment, the second only a fragment. -/
theorem C5_amended_witness :
    nthOr none
      ((([⟨0, some "id0", some "fn0", some "ab"⟩, ⟨0, none, none, some "cd"⟩] :
          List ToolCallDelta).foldl ChoiceBuffer.append_tool_call
          (ChoiceBuffer.init 0)).tool_calls_buffers) 0 =
      some ⟨0, some "fn0", some "id0", [some "ab", some "cd"]⟩ ∧
    joinStrict [some "ab", some "cd"] = Except.ok (concatStr ["ab", "cd"]) :=
  C5_amended_first_delta_wins 0 (ChoiceBuffer.init 0)
    ⟨0, some "id0", some "fn0", some "ab"⟩ [⟨0, none, none, some "cd"⟩]
    ["ab", "cd"] rfl rfl (by simp) rfl

/-! ### Claim C10 -/

/-- Claim C10: a per-choice entry whose delta is null is skipped entirely
by the fold step — removing every null-delta entry from a chunk leaves
`build_streaming_response` unchanged, so no choice buffer is created or
extended for such an entry and its finish reason, even when present, is
not recorded. -/
theorem C10_falsy_delta_skipped (w : StreamWrapperState) (c : Chunk) :
    build_streaming_response w c =
      build_streaming_response w
        { c with choices := c.choices.map (List.filter (fun ch => ch.delta.isSome)) } := by
  have hfold : ∀ (l : List ChunkChoice) (w : StreamWrapperState),
      l.foldl processChoice w =
        (l.filter (fun ch => ch.delta.isSome)).foldl processChoice w := by
    intro l
    induction l with
    | nil => intro w; rfl
    | cons ch rest ih =>
      intro w
      cases hd : ch.delta with
      | none =>
        have hskip : processChoice w ch = w := by simp [processChoice, hd]
        simp [List.filter_cons, hd, hskip, ih]
      | some d => simp [List.filter_cons, hd, ih]
  cases hc : c.choices with
  | none => simp [build_streaming_response, hc]
  | some l => simp [build_streaming_response, hc, hfold l w]

/-! ### Claim C6 -/

theorem textAtBufs_all_empty :
    ∀ (m : List ChoiceBuffer), (∀ cb ∈ m, cb.text_content = []) →
      ∀ i, textAtBufs m i = [] := by
  intro m
  induction m with
  | nil => intro _ i; cases i <;> rfl
  | cons cb rest ih =>
    intro hm i
    cases i with
    | zero => exact hm cb (List.mem_cons_self cb rest)
    | succ j => exact ih (fun x hx => hm x (List.mem_cons_of_mem _ hx)) j

theorem textAtBufs_append_empty :
    ∀ (l m : List ChoiceBuffer), (∀ cb ∈ m, cb.text_content = []) →
      ∀ i, textAtBufs (l ++ m) i = textAtBufs l i := by
  intro l
  induction l with
  | nil =>
    intro m hm i
    simpa using textAtBufs_all_empty m hm i
  | cons a rest ih =>
    intro m hm i
    cases i with
    | zero => rfl
    | succ j => exact ih m hm j

theorem ensure_text (l : List ChoiceBuffer) (n i : Nat) :
    textAtBufs (ensureChoiceBuffers l n) i = textAtBufs l i := by
  unfold ensureChoiceBuffers
  apply textAtBufs_append_empty
  intro cb hcb
  rw [List.mem_map] at hcb
  obtain ⟨k, _, rfl⟩ := hcb
  rfl

theorem ensure_length (l : List ChoiceBuffer) (n : Nat) :
    n < (ensureChoiceBuffers l n).length := by
  simp [ensureChoiceBuffers, List.length_append, List.length_map,
    List.length_range']
  omega

theorem listModify_length {α : Type} (f : α → α) :
    ∀ (l : List α) (i : Nat), (listModify i f l).length = l.length := by
  intro l
  induction l with
  | nil => intro i; cases i <;> rfl
  | cons a rest ih =>
    intro i
    cases i with
    | zero => rfl
    | succ j => simpa [listModify] using ih j

theorem listModify_textAt_keep (f : ChoiceBuffer → ChoiceBuffer)
    (hf : ∀ cb, (f cb).text_content = cb.text_content) :
    ∀ (l : List ChoiceBuffer) (j i : Nat),
      textAtBufs (listModify j f l) i = textAtBufs l i := by
  intro l
  induction l with
  | nil => intro j i; cases j <;> rfl
  | cons a rest ih =>
    intro j i
    cases j with
    | zero =>
      cases i with
      | zero => simpa [textAtBufs, listModify] using hf a
      | succ i2 => rfl
    | succ j2 =>
      cases i with
      | zero => rfl
      | succ i2 => exact ih j2 i2

theorem listModify_textAt_ne :
    ∀ (l : List ChoiceBuffer) (f : ChoiceBuffer → ChoiceBuffer) (j i : Nat),
      j ≠ i → textAtBufs (listModify j f l) i = textAtBufs l i := by
  intro l
  induction l with
  | nil => intro f j i _; cases j <;> rfl
  | cons a rest ih =>
    intro f j i hne
    cases j with
    | zero =>
      cases i with
      | zero => exact absurd rfl hne
      | succ i2 => rfl
    | succ j2 =>
      cases i with
      | zero => rfl
      | succ i2 => exact ih f j2 i2 (fun h => hne (by rw [h]))

theorem listModify_textAt_app (s : String) (f : ChoiceBuffer → ChoiceBuffer)
    (hf : ∀ cb, (f cb).text_content = cb.text_content ++ [s]) :
    ∀ (l : List ChoiceBuffer) (i : Nat), i < l.length →
      textAtBufs (listModify i f l) i = textAtBufs l i ++ [s] := by
  intro l
  induction l with
  | nil => intro i h; simp at h
  | cons a rest ih =>
    intro i h
    cases i with
    | zero => simpa [textAtBufs, listModify] using hf a
    | succ j => exact ih j (by simpa using h)

theorem append_tool_call_text (cb : ChoiceBuffer) (tc : ToolCallDelta) :
    (cb.append_tool_call tc).text_content = cb.text_content := rfl

theorem foldl_append_tool_call_text (tcs : List ToolCallDelta) :
    ∀ cb : ChoiceBuffer,
      (tcs.foldl ChoiceBuffer.append_tool_call cb).text_content =
        cb.text_content := by
  induction tcs with
  | nil => intro cb; rfl
  | cons tc rest ih =>
    intro cb
    rw [List.foldl_cons, ih, append_tool_call_text]

theorem textAt_applyFinish (ch : ChunkChoice) (bufs : List ChoiceBuffer)
    (i : Nat) : textAtBufs (applyFinish ch bufs) i = textAtBufs bufs i := by
  unfold applyFinish
  split
  · exact listModify_textAt_keep
      (fun cb => { cb with finish_reason := ch.finish_reason })
      (fun cb => rfl) bufs ch.index i
  · rfl

theorem length_applyFinish (ch : ChunkChoice) (bufs : List ChoiceBuffer) :
    (applyFinish ch bufs).length = bufs.length := by
  unfold applyFinish
  split
  · exact listModify_length _ bufs ch.index
  · rfl

theorem textAt_applyToolCalls (ch : ChunkChoice) (d : ChoiceDelta)
    (bufs : List ChoiceBuffer) (i : Nat) :
    textAtBufs (applyToolCalls ch d bufs) i = textAtBufs bufs i := by
  unfold applyToolCalls
  split
  · next tcs _ =>
    exact listModify_textAt_keep
      (fun cb => tcs.foldl ChoiceBuffer.append_tool_call cb)
      (foldl_append_tool_call_text tcs) bufs ch.index i
  · rfl

theorem textAt_applyContent (ch : ChunkChoice) (d : ChoiceDelta)
    (bufs : List ChoiceBuffer) (i : Nat) (hlen : ch.index < bufs.length) :
    textAtBufs (applyContent ch d bufs) i =
      textAtBufs bufs i ++
        (if ch.index = i then
          (match d.content with | some s => [s] | none => []) else []) := by
  unfold applyContent
  cases hcon : d.content with
  | none => simp
  | some s =>
    by_cases hidx : ch.index = i
    · subst hidx
      simpa using listModify_textAt_app s _ (fun cb => rfl) bufs ch.index hlen
    · simp [hidx, listModify_textAt_ne bufs _ ch.index i hidx]

theorem textAt_processChoice (w : StreamWrapperState) (ch : ChunkChoice)
    (i : Nat) :
    textAtBufs (processChoice w ch).choice_buffers i =
      textAtBufs w.choice_buffers i ++ choiceFragments i ch := by
  unfold processChoice choiceFragments
  cases hd : ch.delta with
  | none => simp
  | some d =>
    have hlen : ch.index <
        (applyFinish ch (ensureChoiceBuffers w.choice_buffers ch.index)).length := by
      rw [length_applyFinish]
      exact ensure_length w.choice_buffers ch.index
    simp only
    rw [textAt_applyToolCalls, textAt_applyContent ch d _ i hlen,
      textAt_applyFinish, ensure_text]

theorem textAt_foldChoices (i : Nat) :
    ∀ (l : List ChunkChoice) (w : StreamWrapperState),
      textAtBufs ((l.foldl processChoice w).choice_buffers) i =
        textAtBufs w.choice_buffers i ++ catLists (l.map (choiceFragments i)) := by
  intro l
  induction l with
  | nil => intro w; simp [catLists]
  | cons ch rest ih =>
    intro w
    rw [List.foldl_cons, ih, textAt_processChoice]
    simp [catLists, List.append_assoc]

theorem choice_buffers_set_response_id (w : StreamWrapperState) (c : Chunk) :
    (set_response_id w c).choice_buffers = w.choice_buffers := by
  unfold set_response_id
  split
  · rfl
  · split <;> rfl

theorem choice_buffers_set_response_model (w : StreamWrapperState) (c : Chunk) :
    (set_response_model w c).choice_buffers = w.choice_buffers := by
  unfold set_response_model
  split
  · rfl
  · split <;> rfl

theorem choice_buffers_set_response_service_tier (w : StreamWrapperState)
    (c : Chunk) :
    (set_response_service_tier w c).choice_buffers = w.choice_buffers := by
  unfold set_response_service_tier
  split
  · rfl
  · split <;> rfl

theorem choice_buffers_set_usage (w : StreamWrapperState) (c : Chunk) :
    (set_usage w c).choice_buffers = w.choice_buffers := by
  unfold set_usage
  split <;> rfl

theorem textAt_process_chunk (w : StreamWrapperState) (c : Chunk) (i : Nat) :
    textAtBufs (process_chunk w c).choice_buffers i =
      textAtBufs w.choice_buffers i ++ chunkFragments i c := by
  unfold process_chunk chunkFragments
  rw [choice_buffers_set_usage]
  unfold build_streaming_response
  cases hc : c.choices with
  | none =>
    simp [choice_buffers_set_response_service_tier,
      choice_buffers_set_response_model, choice_buffers_set_response_id]
  | some l =>
    rw [textAt_foldChoices, choice_buffers_set_response_service_tier,
      choice_buffers_set_response_model, choice_buffers_set_response_id]

theorem textAt_foldl_chunks (i : Nat) :
    ∀ (cs : List Chunk) (w : StreamWrapperState),
      textAtBufs ((cs.foldl process_chunk w).choice_buffers) i =
        textAtBufs w.choice_buffers i ++ contentFragments i cs := by
  intro cs
  induction cs with
  | nil => intro w; simp [contentFragments, catLists]
  | cons c rest ih =>
    intro w
    rw [List.foldl_cons, ih, textAt_process_chunk]
    simp [contentFragments, catLists, List.append_assoc]

/-- Claim C6: for every choice index, the accumulated text fragments of
the wrapper after folding any chunk sequence are exactly the non-null
content fragments seen for that index, in arrival order (an empty-string
content delta is appended and counts as seen; an absent/null content delta
is skipped — `contentFragments` keeps `""` and drops `none`), so the
assembled text is their ordered concatenation. -/
theorem C6_text_assembly (cs : List Chunk) (i : Nat) :
    textAt (foldChunks cs) i = contentFragments i cs ∧
    concatStr (textAt (foldChunks cs) i) = concatStr (contentFragments i cs) := by
  have h : textAt (foldChunks cs) i = contentFragments i cs := by
    unfold textAt foldChunks
    rw [textAt_foldl_chunks]
    rfl
  exact ⟨h, by rw [h]⟩

/-! ### Claim C7 -/

theorem runProg_mem (g : Nat → Option PyException) :
    ∀ (l : List Op) (k : Nat) (op : Op), op ∈ (runProg g k l).1 → op ∈ l := by
  intro l
  induction l with
  | nil => intro k op h; simp [runProg] at h
  | cons o rest ih =>
    intro k op h
    rw [runProg] at h
    split at h
    · simp at h
    · simp at h
      rcases h with rfl | h
      · exact List.mem_cons_self _ _
      · exact List.mem_cons_of_mem _ (ih (k + 1) op h)

theorem cleanupRun_ops_mem (g : Nat → Option PyException) (k : Nat)
    (capture : Bool) (w : StreamWrapperState) (op : Op)
    (h : op ∈ ((cleanupRun g k capture w).1).ops) :
    op ∈ (cleanupProg capture w).1 := by
  unfold cleanupRun at h
  split at h
  · exact runProg_mem g _ k op h
  · simp at h

theorem emit_mem_cleanupProg (capture : Bool) (w : StreamWrapperState)
    (ev : ChoiceEvent) (h : Op.emit ev ∈ (cleanupProg capture w).1) :
    ev ∈ (choiceEvents capture 0 w.choice_buffers).1 := by
  cases hce : (choiceEvents capture 0 w.choice_buffers).2 with
  | some e =>
    have hops : (cleanupProg capture w).1 =
        cleanupAttrOps w ++ (choiceEvents capture 0 w.choice_buffers).1.map Op.emit := by
      simp [cleanupProg, hce]
    rw [hops] at h
    simp only [List.mem_append, List.mem_map] at h
    rcases h with h1 | ⟨x, hx, hxe⟩
    · exact absurd h1 (emit_not_mem_attrOps w ev)
    · injection hxe with h3
      subst h3
      exact hx
  | none =>
    rw [cleanupProg_ops capture w (by simp [cleanupProg, hce])] at h
    simp only [List.mem_append, List.mem_map, List.mem_singleton] at h
    rcases h with h1 | ⟨x, hx, hxe⟩ | h2
    · exact absurd h1 (emit_not_mem_attrOps w ev)
    · injection hxe with h3
      subst h3
      exact hx
    · simp at h2

theorem mem_choiceEvents (capture : Bool) :
    ∀ (l : List ChoiceBuffer) (idx : Nat) (ev : ChoiceEvent),
      ev ∈ (choiceEvents capture idx l).1 →
      ∃ k cb, l.get? k = some cb ∧
        choiceEventOf capture (idx + k) cb = Except.ok ev := by
  intro l
  induction l with
  | nil => intro idx ev h; simp [choiceEvents] at h
  | cons cb rest ih =>
    intro idx ev h
    rw [choiceEvents] at h
    cases hce : choiceEventOf capture idx cb with
    | error e => rw [hce] at h; simp at h
    | ok ev0 =>
      rw [hce] at h
      simp at h
      rcases h with rfl | h
      · exact ⟨0, cb, rfl, by rw [Nat.add_zero]; exact hce⟩
      · obtain ⟨k, cb2, hget, hok⟩ := ih (idx + 1) ev h
        refine ⟨k + 1, cb2, hget, ?_⟩
        rw [show idx + (k + 1) = idx + 1 + k by omega]
        exact hok

theorem choiceEventOf_shape (capture : Bool) (idx : Nat) (cb : ChoiceBuffer)
    (ev : ChoiceEvent) (h : choiceEventOf capture idx cb = Except.ok ev) :
    ev.index = idx ∧
    ev.message.role = "assistant" ∧
    ev.message.content =
      (if capture && !cb.text_content.isEmpty then
        some (concatStr cb.text_content) else none) := by
  unfold choiceEventOf at h
  cases hx : (if !cb.tool_calls_buffers.isEmpty then
        Except.map Option.some (buildToolCalls capture cb.tool_calls_buffers)
      else Except.ok none) with
  | error e =>
    rw [hx] at h
    dsimp only at h
    exact Except.noConfusion h
  | ok tcs =>
    rw [hx] at h
    dsimp only at h
    injection h with h1
    subst h1
    exact ⟨rfl, rfl, rfl⟩

/-- Claim C7 (amended): every summary event emitted by `cleanup` has
message role `"assistant"` and carries its own choice index: the buffer at
position `ev.index` of the wrapper is the one the event was built from,
and the event's text content field equals the concatenation of exactly
that buffer's content fragments when content capture is enabled and that
buffer's fragment list is nonempty, and is absent otherwise — so content
is present only when capture is on and at least one fragment was appended
for the event's own choice, and its value (that choice's assembled text)
may itself be the empty string. -/
theorem C7_amended_role_and_content (g : Nat → Option PyException) (k : Nat)
    (capture : Bool) (w : StreamWrapperState) (ev : ChoiceEvent)
    (h : Op.emit ev ∈ ((cleanupRun g k capture w).1).ops) :
    ev.message.role = "assistant" ∧
    ∃ cb, w.choice_buffers.get? ev.index = some cb ∧
      ev.message.content =
        (if capture && !cb.text_content.isEmpty then
          some (concatStr cb.text_content) else none) := by
  have h1 := cleanupRun_ops_mem g k capture w _ h
  have h2 := emit_mem_cleanupProg capture w ev h1
  obtain ⟨k2, cb, hget, hok⟩ := mem_choiceEvents capture w.choice_buffers 0 ev h2
  obtain ⟨hidx, hrole, hcontent⟩ := choiceEventOf_shape capture (0 + k2) cb ev hok
  refine ⟨hrole, cb, ?_, hcontent⟩
  rw [hidx, Nat.zero_add]
  exact hget

/-- Witness for the amended C7: a wrapper holding one choice buffer with
text fragment `"hi"` and capture enabled emits exactly this event, whose
content is the concatenation of the fragments of the buffer at the
event's own index. -/
theorem C7_amended_witness :
    (⟨0, "stop", ⟨"assistant", some "hi", none⟩⟩ : ChoiceEvent).message.role =
      "assistant" ∧
    ∃ cb, wOneText.choice_buffers.get?
        (⟨0, "stop", ⟨"assistant", some "hi", none⟩⟩ : ChoiceEvent).index =
        some cb ∧
      (⟨0, "stop", ⟨"assistant", some "hi", none⟩⟩ :
          ChoiceEvent).message.content =
        (if true && !cb.text_content.isEmpty then
          some (concatStr cb.text_content) else none) :=
  C7_amended_role_and_content noFault 0 true wOneText
    ⟨0, "stop", ⟨"assistant", some "hi", none⟩⟩ (by decide)

/-- Claim C7, counterexample: with capture enabled and a single
empty-string content delta, the assembled text is empty, yet the emitted
summary event carries the content field (as the empty string): the field
is gated on the fragment list being nonempty, not on the assembled text
being nonempty. -/
theorem C7_counterexample :
    emitted ((cleanupRun noFault 0 true (foldChunks [chunkEmptyContent])).1).ops
      = [⟨0, "error", ⟨"assistant", some "", none⟩⟩] ∧
    concatStr (textAt (foldChunks [chunkEmptyContent]) 0) = "" :=
  ⟨rfl, rfl⟩

end OpenAIV2
